import Mathlib

/-!
Verification of the mcreplay session engine (src/main.go) against its
natural-language specification.  The Go program is shallowly embedded:
pure packet-processing functions become Lean functions, the two loops
(relay pump, replay sender, replay responder) become folds over explicit
input traces, real time becomes an explicit elapsed-time value, and the
results of blocking network writes are supplied by an explicit oracle.
Machine integers are modelled as Nat/Int; float64 values are modelled by
their 64-bit patterns (the engine never does float arithmetic - it only
stores, compares with zero, and serializes them).
-/

namespace MCReplay

/-! ### Protocol phases (the Go iota constants) -/

def handshaking : Nat := 0

def status : Nat := 1

def login : Nat := 2

def play : Nat := 3

/-! ### Data model -/

/-- A float64 value, modelled by its 64-bit pattern.  The engine stores
these, compares them with zero and passes them through serialization; it
never computes with them. -/
structure Double where
  bits : Nat
deriving DecidableEq, Repr

/-- Go float64 comparison with literal zero: true exactly for +0.0
(pattern 0) and -0.0 (pattern 0x8000000000000000). -/
def Double.isZero (d : Double) : Bool :=
  d.bits = 0 || d.bits = 0x8000000000000000

/-- mcPkt.Packet: an opcode (int32) plus raw payload bytes. -/
structure Packet where
  ID : Int
  Data : List Nat
deriving DecidableEq, Repr

/-- recordedPacket: a packet plus its relative-time offset
(time.Duration, int64 nanoseconds). -/
structure recordedPacket where
  Packet : Packet
  RelatTime : Int
deriving DecidableEq, Repr

/-- SerializableSession: the persisted part of a session. -/
structure SerializableSession where
  Packets : List recordedPacket
  LoginX : Double
  LoginY : Double
  LoginZ : Double
deriving DecidableEq, Repr

/-- Session: the runtime state the packet-processing functions touch.
The connections are external collaborators; StartTime is modelled by
passing the elapsed time (time.Since(s.StartTime)) explicitly. -/
structure Session extends SerializableSession where
  State : Nat
deriving DecidableEq, Repr

/-- ReplaySession: a Session plus the one-shot world-aligned flag. -/
structure ReplaySession extends Session where
  wasPorted : Bool
deriving DecidableEq, Repr

/-! ### Field codecs (go-mc packet field encodings used by the engine) -/

/-- Big-endian byte-list value. -/
def beNat (bs : List Nat) : Nat :=
  bs.foldl (fun a b => a * 256 + b) 0

/-- The 8 big-endian bytes of a 64-bit value (go-mc Long / Double wire form). -/
def u64Bytes (n : Nat) : List Nat :=
  [n / 2 ^ 56 % 256, n / 2 ^ 48 % 256, n / 2 ^ 40 % 256, n / 2 ^ 32 % 256,
   n / 2 ^ 24 % 256, n / 2 ^ 16 % 256, n / 2 ^ 8 % 256, n % 256]

/-- Scan of three consecutive Doubles (24 bytes), as in
packet.Scan(&LoginX, &LoginY, &LoginZ); extra trailing bytes are ignored. -/
def scanPos (data : List Nat) : Option (Double × Double × Double) :=
  if 24 ≤ data.length then
    some (⟨beNat (data.take 8)⟩, ⟨beNat ((data.drop 8).take 8)⟩,
      ⟨beNat ((data.drop 16).take 8)⟩)
  else none

/-- Scan of one Long (8 bytes big-endian), as in packet.Scan(&keepID). -/
def scanLong (data : List Nat) : Option Nat :=
  if 8 ≤ data.length then some (beNat (data.take 8)) else none

/-! ### Phase state machine (setStateFromServerbound / setStateFromClientbound) -/

def setStateFromServerbound (s : Session) (id : Int) : Session :=
  if s.State = handshaking then
    if id = 0x00 then { s with State := login } else s
  else s

def setStateFromClientbound (s : Session) (id : Int) : Session :=
  if s.State = login then
    if id = 0x02 then { s with State := play } else s
  else s

/-! ### Recorder (proccessServerbound / proccessClientbound) -/

/-- proccessServerbound: capture filter, phase update, append.  The
elapsed time time.Since(s.StartTime) is passed explicitly as since. -/
def proccessServerbound (s : Session) (packet : Packet) (since : Int) : Session :=
  if s.State = play ∧ (packet.ID = 0x10 ∨ packet.ID = 0x00) then s
  else
    let s1 := setStateFromServerbound s packet.ID
    { s1 with Packets := s1.Packets ++ [⟨packet, since⟩] }

/-- proccessClientbound: phase update, then one-time login-position capture. -/
def proccessClientbound (s : Session) (packet : Packet) : Session :=
  let s1 := setStateFromClientbound s packet.ID
  if s1.State = play then
    if packet.ID = 0x34 ∧ s1.LoginX.isZero ∧ s1.LoginY.isZero ∧ s1.LoginZ.isZero then
      match scanPos packet.Data with
      | some (x, y, z) => { s1 with LoginX := x, LoginY := y, LoginZ := z }
      | none => s1
    else s1
  else s1

/-! ### Basic preservation lemmas for the state machine -/

@[simp] theorem setStateFromServerbound_toSz (s : Session) (id : Int) :
    (setStateFromServerbound s id).toSerializableSession = s.toSerializableSession := by
  unfold setStateFromServerbound
  split
  · split
    · rfl
    · rfl
  · rfl

@[simp] theorem setStateFromClientbound_toSz (s : Session) (id : Int) :
    (setStateFromClientbound s id).toSerializableSession = s.toSerializableSession := by
  unfold setStateFromClientbound
  split
  · split
    · rfl
    · rfl
  · rfl

theorem setStateFromServerbound_Packets (s : Session) (id : Int) :
    (setStateFromServerbound s id).Packets = s.Packets := by
  have h := setStateFromServerbound_toSz s id
  exact congrArg SerializableSession.Packets h

theorem setStateFromClientbound_Packets (s : Session) (id : Int) :
    (setStateFromClientbound s id).Packets = s.Packets := by
  have h := setStateFromClientbound_toSz s id
  exact congrArg SerializableSession.Packets h

/-- C1 - Capture filter: a serverbound packet with opcode 0x10 or 0x00
seen while the phase is Play leaves the session (in particular the
packet log) unchanged; every other serverbound packet is appended, with
its relative-time offset, to the end of the log; clientbound processing
never appends to the log. -/
theorem c1_capture_filter :
    (∀ (s : Session) (p : Packet) (t : Int),
      s.State = play → (p.ID = 0x10 ∨ p.ID = 0x00) →
        proccessServerbound s p t = s) ∧
    (∀ (s : Session) (p : Packet) (t : Int),
      ¬(s.State = play ∧ (p.ID = 0x10 ∨ p.ID = 0x00)) →
        (proccessServerbound s p t).Packets = s.Packets ++ [⟨p, t⟩]) ∧
    (∀ (s : Session) (p : Packet),
      (proccessClientbound s p).Packets = s.Packets) := by
  refine ⟨?_, ?_, ?_⟩
  · intro s p t hplay hid
    unfold proccessServerbound
    rw [if_pos ⟨hplay, hid⟩]
  · intro s p t h
    unfold proccessServerbound
    rw [if_neg h]
    simp [setStateFromServerbound_Packets]
  · intro s p
    unfold proccessClientbound
    dsimp only
    split <;> (try split) <;> (try split) <;>
      simp [setStateFromClientbound_Packets]

/-- Witness for C1 at concrete inputs: a Play-phase keep-alive response
is filtered, a Play-phase movement packet is appended, and clientbound
processing leaves the log unchanged. -/
theorem c1_capture_filter_witness :
    proccessServerbound ⟨⟨[], ⟨0⟩, ⟨0⟩, ⟨0⟩⟩, 3⟩ ⟨0x10, [1, 2]⟩ 5 =
      ⟨⟨[], ⟨0⟩, ⟨0⟩, ⟨0⟩⟩, 3⟩ ∧
    (proccessServerbound ⟨⟨[], ⟨0⟩, ⟨0⟩, ⟨0⟩⟩, 3⟩ ⟨0x11, [3]⟩ 7).Packets =
      [] ++ [⟨⟨0x11, [3]⟩, 7⟩] ∧
    (proccessClientbound ⟨⟨[], ⟨0⟩, ⟨0⟩, ⟨0⟩⟩, 3⟩ ⟨0x11, [3]⟩).Packets = [] :=
  ⟨c1_capture_filter.1 _ _ _ rfl (Or.inl rfl),
   c1_capture_filter.2.1 _ _ _ (by decide),
   c1_capture_filter.2.2 _ _⟩

/-- C2 - Phase state machine: serverbound 0x00 advances Handshaking to
Login, clientbound 0x02 advances Login to Play, every other combination
of phase, opcode and direction leaves the phase unchanged, the phase
never decreases, and re-observing a trigger after the phase advanced is
a no-op. -/
theorem c2_phase_machine :
    (∀ s : Session, s.State = handshaking →
        (setStateFromServerbound s 0x00).State = login) ∧
    (∀ (s : Session) (id : Int), s.State ≠ handshaking ∨ id ≠ 0x00 →
        (setStateFromServerbound s id).State = s.State) ∧
    (∀ s : Session, s.State = login →
        (setStateFromClientbound s 0x02).State = play) ∧
    (∀ (s : Session) (id : Int), s.State ≠ login ∨ id ≠ 0x02 →
        (setStateFromClientbound s id).State = s.State) ∧
    (∀ (s : Session) (id : Int),
        s.State ≤ (setStateFromServerbound s id).State ∧
        s.State ≤ (setStateFromClientbound s id).State) ∧
    (∀ s : Session, s.State = login → setStateFromServerbound s 0x00 = s) ∧
    (∀ s : Session, s.State = play → setStateFromClientbound s 0x02 = s) := by
  refine ⟨?_, ?_, ?_, ?_, ?_, ?_, ?_⟩
  · intro s h
    unfold setStateFromServerbound
    rw [if_pos h, if_pos rfl]
  · intro s id h
    unfold setStateFromServerbound
    split
    · split
      · rename_i h1 h2
        cases h with
        | inl h3 => exact absurd h1 h3
        | inr h3 => exact absurd h2 h3
      · rfl
    · rfl
  · intro s h
    unfold setStateFromClientbound
    rw [if_pos h, if_pos rfl]
  · intro s id h
    unfold setStateFromClientbound
    split
    · split
      · rename_i h1 h2
        cases h with
        | inl h3 => exact absurd h1 h3
        | inr h3 => exact absurd h2 h3
      · rfl
    · rfl
  · intro s id
    constructor
    · unfold setStateFromServerbound
      split
      · split
        · rename_i h1 h2
          simp only [h1]
          unfold handshaking login
          omega
        · exact Nat.le_refl _
      · exact Nat.le_refl _
    · unfold setStateFromClientbound
      split
      · split
        · rename_i h1 h2
          simp only [h1]
          unfold login play
          omega
        · exact Nat.le_refl _
      · exact Nat.le_refl _
  · intro s h
    unfold setStateFromServerbound
    rw [if_neg]
    rw [h]
    unfold login handshaking
    omega
  · intro s h
    unfold setStateFromClientbound
    rw [if_neg]
    rw [h]
    unfold play login
    omega

/-- Witness for C2 at concrete inputs: handshake trigger, an unrelated
opcode leaving the phase alone, login trigger, and both idempotence
cases. -/
theorem c2_phase_machine_witness :
    (setStateFromServerbound ⟨⟨[], ⟨0⟩, ⟨0⟩, ⟨0⟩⟩, 0⟩ 0x00).State = login ∧
    (setStateFromServerbound ⟨⟨[], ⟨0⟩, ⟨0⟩, ⟨0⟩⟩, 0⟩ 0x07).State = 0 ∧
    (setStateFromClientbound ⟨⟨[], ⟨0⟩, ⟨0⟩, ⟨0⟩⟩, 2⟩ 0x02).State = play ∧
    setStateFromServerbound ⟨⟨[], ⟨0⟩, ⟨0⟩, ⟨0⟩⟩, 2⟩ 0x00 =
      ⟨⟨[], ⟨0⟩, ⟨0⟩, ⟨0⟩⟩, 2⟩ ∧
    setStateFromClientbound ⟨⟨[], ⟨0⟩, ⟨0⟩, ⟨0⟩⟩, 3⟩ 0x02 =
      ⟨⟨[], ⟨0⟩, ⟨0⟩, ⟨0⟩⟩, 3⟩ :=
  ⟨c2_phase_machine.1 _ rfl,
   c2_phase_machine.2.1 _ _ (Or.inr (by decide)),
   c2_phase_machine.2.2.1 _ rfl,
   c2_phase_machine.2.2.2.2.2.1 _ rfl,
   c2_phase_machine.2.2.2.2.2.2 _ rfl⟩

theorem setStateFromClientbound_of_ne_login (s : Session) (id : Int)
    (h : s.State ≠ login) : setStateFromClientbound s id = s := by
  unfold setStateFromClientbound
  rw [if_neg h]

/-- C5 counterexample: in Play with the position still at the all-zero
sentinel, a first clientbound 0x34 whose decoded coordinates are
(0, 0, 0) is captured, yet the stored position still equals the
sentinel, so a second 0x34 packet overwrites it - contradicting
"subsequent 0x34 packets do not overwrite the stored value". -/
theorem c5_counterexample :
    scanPos (List.replicate 24 0) = some (⟨0⟩, ⟨0⟩, ⟨0⟩) ∧
    proccessClientbound ⟨⟨[], ⟨0⟩, ⟨0⟩, ⟨0⟩⟩, 3⟩ ⟨0x34, List.replicate 24 0⟩ =
      ⟨⟨[], ⟨0⟩, ⟨0⟩, ⟨0⟩⟩, 3⟩ ∧
    (proccessClientbound
        (proccessClientbound ⟨⟨[], ⟨0⟩, ⟨0⟩, ⟨0⟩⟩, 3⟩ ⟨0x34, List.replicate 24 0⟩)
        ⟨0x34, 0x40 :: List.replicate 23 0⟩).LoginX = ⟨0x4000000000000000⟩ ∧
    (⟨0x4000000000000000⟩ : Double) ≠ (⟨0⟩ : Double) := by
  decide

/-- C5 (amended) - One-time login-position capture: while in Play, a
clientbound 0x34 packet observed with the stored position at the
all-zero sentinel has its decoded (x, y, z) stored; and as long as the
stored position does not equal the sentinel, no packet overwrites it.
(The original claim's unconditional "at most once" fails when the first
captured value is itself all-zero, since the sentinel is ambiguous.) -/
theorem c5_login_position_capture :
    (∀ (s : Session) (p : Packet) (x y z : Double),
      s.State = play → p.ID = 0x34 →
      s.LoginX.isZero → s.LoginY.isZero → s.LoginZ.isZero →
      scanPos p.Data = some (x, y, z) →
        (proccessClientbound s p).LoginX = x ∧
        (proccessClientbound s p).LoginY = y ∧
        (proccessClientbound s p).LoginZ = z) ∧
    (∀ (s : Session) (p : Packet),
      ¬(s.LoginX.isZero ∧ s.LoginY.isZero ∧ s.LoginZ.isZero) →
        (proccessClientbound s p).LoginX = s.LoginX ∧
        (proccessClientbound s p).LoginY = s.LoginY ∧
        (proccessClientbound s p).LoginZ = s.LoginZ) := by
  constructor
  · intro s p x y z hplay hid hx hy hz hscan
    have hne : s.State ≠ login := by
      rw [hplay]
      unfold play login
      omega
    unfold proccessClientbound
    dsimp only
    rw [setStateFromClientbound_of_ne_login s p.ID hne, if_pos hplay,
      if_pos ⟨hid, hx, hy, hz⟩, hscan]
    exact ⟨rfl, rfl, rfl⟩
  · intro s p h
    unfold proccessClientbound
    dsimp only
    split
    · split
      · exfalso
        rename_i hc
        simp only [setStateFromClientbound_toSz] at hc
        exact h ⟨hc.2.1, hc.2.2.1, hc.2.2.2⟩
      · simp
    · simp

/-- Witness for C5 (amended) at concrete inputs: a first 0x34 stores its
decoded coordinates, and a session with a non-sentinel position is
never overwritten. -/
theorem c5_login_position_capture_witness :
    (proccessClientbound ⟨⟨[], ⟨0⟩, ⟨0⟩, ⟨0⟩⟩, 3⟩
        ⟨0x34, 0x3F :: List.replicate 23 0⟩).LoginX = ⟨0x3F00000000000000⟩ ∧
    (proccessClientbound ⟨⟨[], ⟨0x3FF0000000000000⟩, ⟨0⟩, ⟨0⟩⟩, 3⟩
        ⟨0x34, List.replicate 24 0⟩).LoginX = ⟨0x3FF0000000000000⟩ :=
  ⟨(c5_login_position_capture.1 _ _ ⟨0x3F00000000000000⟩ ⟨0⟩ ⟨0⟩ rfl rfl
      (by decide) (by decide) (by decide) (by decide)).1,
   (c5_login_position_capture.2 _ _ (by decide)).1⟩

/-! ### Persistence (SaveToFile / ReadPacketsFromFile)

The spec scopes persistence to the logical schema of the session record
(the literal on-disk rendering is an external collaborator), so
json.Marshal / json.Unmarshal of SerializableSession are modelled as a
translation to and from a JSON value tree.  Go's encoding of each field
of this schema is mirrored: int32 / int64 fields become JSON numbers
with an overflow check on decode, a byte slice becomes a standard
base64 string, float64 fields carry their value through unchanged, and
struct fields appear under their Go field names. -/

inductive Json where
  | null : Json
  | num : Int → Json
  | dbl : Double → Json
  | str : List Char → Json
  | arr : List Json → Json
  | obj : List (String × Json) → Json

/-- The standard base64 alphabet (base64.StdEncoding). -/
def b64Chars : List Char :=
  ['A', 'B', 'C', 'D', 'E', 'F', 'G', 'H', 'I', 'J', 'K', 'L', 'M',
   'N', 'O', 'P', 'Q', 'R', 'S', 'T', 'U', 'V', 'W', 'X', 'Y', 'Z',
   'a', 'b', 'c', 'd', 'e', 'f', 'g', 'h', 'i', 'j', 'k', 'l', 'm',
   'n', 'o', 'p', 'q', 'r', 's', 't', 'u', 'v', 'w', 'x', 'y', 'z',
   '0', '1', '2', '3', '4', '5', '6', '7', '8', '9', '+', '/']

def b64Char (n : Nat) : Char :=
  b64Chars.getD n '='

def b64IndexAux : List Char → Char → Nat → Option Nat
  | [], _, _ => none
  | a :: rest, c, k => if a = c then some k else b64IndexAux rest c (k + 1)

def b64Index (c : Char) : Option Nat :=
  b64IndexAux b64Chars c 0

/-- Standard base64 encoding with padding. -/
def b64Encode : List Nat → List Char
  | a :: b :: c :: rest =>
      b64Char (a / 4) :: b64Char (a % 4 * 16 + b / 16) ::
        b64Char (b % 16 * 4 + c / 64) :: b64Char (c % 64) :: b64Encode rest
  | [a, b] => [b64Char (a / 4), b64Char (a % 4 * 16 + b / 16), b64Char (b % 16 * 4), '=']
  | [a] => [b64Char (a / 4), b64Char (a % 4 * 16), '=', '=']
  | [] => []

/-- Standard base64 decoding with padding. -/
def b64Decode : List Char → Option (List Nat)
  | [] => some []
  | c0 :: c1 :: c2 :: c3 :: rest =>
      match b64Index c0, b64Index c1 with
      | some s0, some s1 =>
          match b64Index c2, b64Index c3 with
          | some s2, some s3 =>
              match b64Decode rest with
              | some t =>
                  some ((s0 * 4 + s1 / 16) :: (s1 % 16 * 16 + s2 / 4) ::
                    (s2 % 4 * 64 + s3) :: t)
              | none => none
          | some s2, none =>
              if c3 = '=' ∧ rest = [] ∧ s2 % 4 = 0 then
                some [s0 * 4 + s1 / 16, s1 % 16 * 16 + s2 / 4]
              else none
          | none, none =>
              if c2 = '=' ∧ c3 = '=' ∧ rest = [] ∧ s1 % 16 = 0 then
                some [s0 * 4 + s1 / 16]
              else none
          | none, some _ => none
      | _, _ => none
  | _ => none

def jLookup : List (String × Json) → String → Option Json
  | [], _ => none
  | (k, v) :: rest, key => if k = key then some v else jLookup rest key

/-- json.Marshal of mcPkt.Packet. -/
def marshalPacket (p : Packet) : Json :=
  Json.obj [("ID", Json.num p.ID), ("Data", Json.str (b64Encode p.Data))]

/-- json.Marshal of recordedPacket. -/
def marshalRecorded (r : recordedPacket) : Json :=
  Json.obj [("Packet", marshalPacket r.Packet), ("RelatTime", Json.num r.RelatTime)]

/-- json.Marshal of SerializableSession: the logical content written by
SaveToFile. -/
def marshalSession (s : SerializableSession) : Json :=
  Json.obj [("Packets", Json.arr (s.Packets.map marshalRecorded)),
    ("LoginX", Json.dbl s.LoginX), ("LoginY", Json.dbl s.LoginY),
    ("LoginZ", Json.dbl s.LoginZ)]

/-- Go's json.Unmarshal range check for an int32 target field. -/
def int32InRange (n : Int) : Prop :=
  -(2 ^ 31) ≤ n ∧ n < 2 ^ 31

instance (n : Int) : Decidable (int32InRange n) := by
  unfold int32InRange
  infer_instance

/-- Go's json.Unmarshal range check for an int64 target field. -/
def int64InRange (n : Int) : Prop :=
  -(2 ^ 63) ≤ n ∧ n < 2 ^ 63

instance (n : Int) : Decidable (int64InRange n) := by
  unfold int64InRange
  infer_instance

/-- json.Unmarshal into mcPkt.Packet. -/
def unmarshalPacket : Json → Option Packet
  | Json.obj fs =>
      match jLookup fs "ID", jLookup fs "Data" with
      | some (Json.num n), some (Json.str cs) =>
          if int32InRange n then
            match b64Decode cs with
            | some bs => some ⟨n, bs⟩
            | none => none
          else none
      | _, _ => none
  | _ => none

/-- json.Unmarshal into recordedPacket. -/
def unmarshalRecorded : Json → Option recordedPacket
  | Json.obj fs =>
      match jLookup fs "Packet", jLookup fs "RelatTime" with
      | some jp, some (Json.num t) =>
          if int64InRange t then
            match unmarshalPacket jp with
            | some p => some ⟨p, t⟩
            | none => none
          else none
      | _, _ => none
  | _ => none

/-- json.Unmarshal into SerializableSession: the logical content read
back by ReadPacketsFromFile. -/
def unmarshalSession : Json → Option SerializableSession
  | Json.obj fs =>
      match jLookup fs "Packets", jLookup fs "LoginX", jLookup fs "LoginY",
          jLookup fs "LoginZ" with
      | some (Json.arr js), some (Json.dbl x), some (Json.dbl y), some (Json.dbl z) =>
          match js.mapM unmarshalRecorded with
          | some ps => some ⟨ps, x, y, z⟩
          | none => none
      | _, _, _, _ => none
  | _ => none

/-! ### Well-formedness: the values the Go structs can actually hold. -/

/-- Payload bytes are bytes and the opcode is an int32. -/
def PacketWF (p : Packet) : Prop :=
  int32InRange p.ID ∧ ∀ b ∈ p.Data, b < 256

/-- The relative time is an int64 (time.Duration). -/
def recordedPacketWF (r : recordedPacket) : Prop :=
  PacketWF r.Packet ∧ int64InRange r.RelatTime

def SerializableSessionWF (s : SerializableSession) : Prop :=
  ∀ r ∈ s.Packets, recordedPacketWF r

instance (p : Packet) : Decidable (PacketWF p) := by
  unfold PacketWF
  infer_instance

instance (r : recordedPacket) : Decidable (recordedPacketWF r) := by
  unfold recordedPacketWF
  infer_instance

instance (s : SerializableSession) : Decidable (SerializableSessionWF s) := by
  unfold SerializableSessionWF
  infer_instance

/-! ### Base64 round trip -/

theorem b64Index_b64Char_fin : ∀ n : Fin 64, b64Index (b64Char n.val) = some n.val := by
  decide

theorem b64Index_b64Char (n : Nat) (h : n < 64) : b64Index (b64Char n) = some n :=
  b64Index_b64Char_fin ⟨n, h⟩

theorem b64Index_pad : b64Index '=' = none := by
  decide

theorem b64_roundtrip : ∀ l : List Nat, (∀ b ∈ l, b < 256) →
    b64Decode (b64Encode l) = some l
  | [], _ => rfl
  | [a], h => by
      have ha : a < 256 := h a (by simp)
      show b64Decode [b64Char (a / 4), b64Char (a % 4 * 16), '=', '='] = some [a]
      have h0 : b64Index (b64Char (a / 4)) = some (a / 4) :=
        b64Index_b64Char _ (by omega)
      have h1 : b64Index (b64Char (a % 4 * 16)) = some (a % 4 * 16) :=
        b64Index_b64Char _ (by omega)
      simp only [b64Decode, h0, h1, b64Index_pad]
      split
      · congr 1
        congr 1
        omega
      · rename_i hcond
        exfalso
        simp at hcond
  | [a, b], h => by
      have ha : a < 256 := h a (by simp)
      have hb : b < 256 := h b (by simp)
      show b64Decode [b64Char (a / 4), b64Char (a % 4 * 16 + b / 16),
        b64Char (b % 16 * 4), '='] = some [a, b]
      have h0 : b64Index (b64Char (a / 4)) = some (a / 4) :=
        b64Index_b64Char _ (by omega)
      have h1 : b64Index (b64Char (a % 4 * 16 + b / 16)) = some (a % 4 * 16 + b / 16) :=
        b64Index_b64Char _ (by omega)
      have h2 : b64Index (b64Char (b % 16 * 4)) = some (b % 16 * 4) :=
        b64Index_b64Char _ (by omega)
      simp only [b64Decode, h0, h1, h2, b64Index_pad]
      split
      · congr 1
        congr 1
        · omega
        · congr 1
          omega
      · rename_i hcond
        exfalso
        simp at hcond
  | a :: b :: c :: rest, h => by
      have ha : a < 256 := h a (by simp)
      have hb : b < 256 := h b (by simp)
      have hc : c < 256 := h c (by simp)
      have hrest : ∀ x ∈ rest, x < 256 := fun x hx => h x (by simp [hx])
      show b64Decode (b64Char (a / 4) :: b64Char (a % 4 * 16 + b / 16) ::
        b64Char (b % 16 * 4 + c / 64) :: b64Char (c % 64) :: b64Encode rest) =
        some (a :: b :: c :: rest)
      have h0 : b64Index (b64Char (a / 4)) = some (a / 4) :=
        b64Index_b64Char _ (by omega)
      have h1 : b64Index (b64Char (a % 4 * 16 + b / 16)) = some (a % 4 * 16 + b / 16) :=
        b64Index_b64Char _ (by omega)
      have h2 : b64Index (b64Char (b % 16 * 4 + c / 64)) = some (b % 16 * 4 + c / 64) :=
        b64Index_b64Char _ (by omega)
      have h3 : b64Index (b64Char (c % 64)) = some (c % 64) :=
        b64Index_b64Char _ (by omega)
      have hr := b64_roundtrip rest hrest
      simp only [b64Decode, h0, h1, h2, h3, hr]
      congr 1
      congr 1
      · omega
      · congr 1
        · omega
        · congr 1
          omega

theorem unmarshalPacket_marshalPacket (p : Packet) (h : PacketWF p) :
    unmarshalPacket (marshalPacket p) = some p := by
  simp only [marshalPacket, unmarshalPacket, jLookup, if_true, if_false,
    reduceCtorEq, String.reduceEq, ite_true, ite_false]
  rw [if_pos h.1, b64_roundtrip p.Data h.2]

theorem unmarshalRecorded_marshalRecorded (r : recordedPacket)
    (h : recordedPacketWF r) :
    unmarshalRecorded (marshalRecorded r) = some r := by
  simp only [marshalRecorded, unmarshalRecorded, jLookup, if_true, if_false,
    reduceCtorEq, String.reduceEq, ite_true, ite_false]
  rw [if_pos h.2, unmarshalPacket_marshalPacket r.Packet h.1]

theorem mapM_unmarshalRecorded (l : List recordedPacket)
    (h : ∀ r ∈ l, recordedPacketWF r) :
    (l.map marshalRecorded).mapM unmarshalRecorded = some l := by
  induction l with
  | nil => rfl
  | cons a t ih =>
      have ha : recordedPacketWF a := h a (by simp)
      have ht : ∀ r ∈ t, recordedPacketWF r := fun r hr => h r (by simp [hr])
      simp only [List.map_cons, List.mapM_cons,
        unmarshalRecorded_marshalRecorded a ha, ih ht]
      rfl

/-- C3 - Round-trip law: JSON-encoding a SessionRecord as SaveToFile
does (packet list and login position) and decoding it back as
ReadPacketsFromFile does yields an equal record; every entry's opcode,
payload bytes and relative-time offset, and the three login-position
coordinates, are preserved exactly and in order. -/
theorem c3_save_load_roundtrip (s : SerializableSession)
    (h : SerializableSessionWF s) :
    unmarshalSession (marshalSession s) = some s := by
  simp only [marshalSession, unmarshalSession, jLookup, if_true, if_false,
    reduceCtorEq, String.reduceEq, ite_true, ite_false]
  rw [mapM_unmarshalRecorded s.Packets h]

/-- Witness for C3: a concrete two-packet record with nonzero payload
bytes, offsets and coordinates survives the save/load round trip. -/
theorem c3_save_load_roundtrip_witness :
    unmarshalSession (marshalSession
      ⟨[⟨⟨0x11, [0, 1, 127, 128, 255]⟩, 500000000⟩, ⟨⟨0x03, []⟩, 1500000000⟩],
        ⟨0x4024000000000000⟩, ⟨0x4050000000000000⟩, ⟨0xC014000000000000⟩⟩) =
    some ⟨[⟨⟨0x11, [0, 1, 127, 128, 255]⟩, 500000000⟩, ⟨⟨0x03, []⟩, 1500000000⟩],
        ⟨0x4024000000000000⟩, ⟨0x4050000000000000⟩, ⟨0xC014000000000000⟩⟩ :=
  c3_save_load_roundtrip _ (by decide)

/-! ### Replay engine (replayPackets / portToLogin)

The sender loop is embedded as a fold over the recorded packet list.
Real time is a virtual clock: now is the elapsed time since replay
start, advanced exactly by the sleeps the code performs.  The results
of the blocking WritePacket calls are supplied by an oracle indexed by
the number of writes issued so far; out collects the successfully
written packets in order.  ported and attempts are ghost counters for
successful and attempted synthetic-teleport injections. -/

structure ReplayState where
  rs : ReplaySession
  now : Int
  out : List Packet
  writes : Nat
  ported : Nat
  attempts : Nat
  stopped : Bool
deriving DecidableEq, Repr

/-- The synthetic chat-command payload built by portToLogin:
mcPkt.String(fmt.Sprintf("/teleport %f %f %f", LoginX, LoginY, LoginZ)).
The decimal rendering fmt performs on float64 is external library
behaviour; the payload is modelled as a function of the three captured
coordinates (their 64-bit patterns in order). -/
def teleportCommandData (x y z : Double) : List Nat :=
  u64Bytes x.bits ++ u64Bytes y.bits ++ u64Bytes z.bits

/-- The synthetic chat-command packet mcPkt.Marshal(0x03, message). -/
def teleportPacket (x y z : Double) : Packet :=
  ⟨0x03, teleportCommandData x y z⟩

/-- portToLogin: write the synthetic teleport packet; only on success
set wasPorted. -/
def portToLogin (oracle : Nat → Bool) (st : ReplayState) : ReplayState :=
  if oracle st.writes then
    { st with
      out := st.out ++ [teleportPacket st.rs.LoginX st.rs.LoginY st.rs.LoginZ],
      writes := st.writes + 1, attempts := st.attempts + 1,
      ported := st.ported + 1, rs := { st.rs with wasPorted := true } }
  else
    { st with writes := st.writes + 1, attempts := st.attempts + 1 }

/-- One iteration of the replayPackets loop body for recorded packet
rp: optional one-shot injection, pacing wait, serverbound phase update,
then the write of the recorded packet; a failed write breaks the loop
(stopped). -/
def replayStep (oracle : Nat → Bool) (st : ReplayState) (rp : recordedPacket) :
    ReplayState :=
  if st.stopped then st
  else
    let st1 := if st.rs.State = play ∧ st.rs.wasPorted = false ∧
        0x12 ≤ rp.Packet.ID ∧ rp.Packet.ID ≤ 0x16 then portToLogin oracle st else st
    let waitTime := rp.RelatTime - st1.now
    let st2 := if waitTime > 0 then { st1 with now := st1.now + waitTime } else st1
    let st3 := { st2 with
      rs := { st2.rs with
        toSession := setStateFromServerbound st2.rs.toSession rp.Packet.ID } }
    if oracle st3.writes then
      { st3 with out := st3.out ++ [rp.Packet], writes := st3.writes + 1 }
    else
      { st3 with writes := st3.writes + 1, stopped := true }

/-- replayPackets: iterate the recorded packets in order. -/
def replayPackets (oracle : Nat → Bool) (st : ReplayState) : ReplayState :=
  st.rs.Packets.foldl (replayStep oracle) st

theorem setStateFromServerbound_of_ne_handshaking (s : Session) (id : Int)
    (h : s.State ≠ handshaking) : setStateFromServerbound s id = s := by
  unfold setStateFromServerbound
  rw [if_neg h]

theorem setStateFromServerbound_of_play (s : Session) (id : Int)
    (h : s.State = play) : setStateFromServerbound s id = s := by
  apply setStateFromServerbound_of_ne_handshaking
  rw [h]
  unfold play handshaking
  omega

/-- One sender iteration on a qualifying packet with the flag unset and
both writes succeeding: teleport injected, then the packet sent. -/
theorem replayStep_inject_ok (oracle : Nat → Bool) (st : ReplayState)
    (rp : recordedPacket) (hstop : st.stopped = false)
    (hplay : st.rs.State = play) (hwp : st.rs.wasPorted = false)
    (hlo : 0x12 ≤ rp.Packet.ID) (hhi : rp.Packet.ID ≤ 0x16)
    (ho1 : oracle st.writes = true) (ho2 : oracle (st.writes + 1) = true) :
    replayStep oracle st rp =
      { rs := { st.rs with wasPorted := true },
        now := if rp.RelatTime - st.now > 0 then st.now + (rp.RelatTime - st.now)
          else st.now,
        out := st.out ++ [teleportPacket st.rs.LoginX st.rs.LoginY st.rs.LoginZ,
          rp.Packet],
        writes := st.writes + 2, ported := st.ported + 1,
        attempts := st.attempts + 1, stopped := false } := by
  unfold replayStep portToLogin
  by_cases hw : rp.RelatTime - st.now > 0
  all_goals
    simp [hstop, hplay, hwp, hlo, hhi, ho1, ho2, hw,
      setStateFromServerbound_of_play, List.append_assoc]

theorem replaySessionEtaWasPorted (r : ReplaySession) (b : Bool)
    (h : r.wasPorted = b) :
    ({ toSession := r.toSession, wasPorted := b } : ReplaySession) = r := by
  cases r
  rw [← h]

/-- One sender iteration with the flag already set and the write
succeeding: no injection, the packet is paced and sent. -/
theorem replayStep_no_inject (oracle : Nat → Bool) (st : ReplayState)
    (rp : recordedPacket) (hstop : st.stopped = false)
    (hplay : st.rs.State = play) (hwp : st.rs.wasPorted = true)
    (ho1 : oracle st.writes = true) :
    replayStep oracle st rp =
      { st with
        now := if rp.RelatTime - st.now > 0 then st.now + (rp.RelatTime - st.now)
          else st.now,
        out := st.out ++ [rp.Packet], writes := st.writes + 1 } := by
  unfold replayStep
  by_cases hw : rp.RelatTime - st.now > 0
  all_goals
    simp [hstop, hplay, hwp, ho1, hw, setStateFromServerbound_of_play]
  all_goals exact replaySessionEtaWasPorted st.rs true hwp

/-- One sender iteration on a qualifying packet where the injection
write fails but the packet write succeeds: the flag stays unset, no
teleport appears in the output, and one failed attempt is recorded. -/
theorem replayStep_inject_fail (oracle : Nat → Bool) (st : ReplayState)
    (rp : recordedPacket) (hstop : st.stopped = false)
    (hplay : st.rs.State = play) (hwp : st.rs.wasPorted = false)
    (hlo : 0x12 ≤ rp.Packet.ID) (hhi : rp.Packet.ID ≤ 0x16)
    (ho1 : oracle st.writes = false) (ho2 : oracle (st.writes + 1) = true) :
    replayStep oracle st rp =
      { st with
        now := if rp.RelatTime - st.now > 0 then st.now + (rp.RelatTime - st.now)
          else st.now,
        out := st.out ++ [rp.Packet], writes := st.writes + 2,
        attempts := st.attempts + 1 } := by
  unfold replayStep portToLogin
  by_cases hw : rp.RelatTime - st.now > 0
  all_goals
    simp [hstop, hplay, hwp, hlo, hhi, ho1, ho2, hw,
      setStateFromServerbound_of_play]
  all_goals exact replaySessionEtaWasPorted st.rs false hwp

/-- A sender iteration with the world-aligned flag already set never
injects: the injection counter and the flag are unchanged. -/
theorem replayStep_flag_true (oracle : Nat → Bool) (st : ReplayState)
    (rp : recordedPacket) (h : st.rs.wasPorted = true) :
    (replayStep oracle st rp).ported = st.ported ∧
    (replayStep oracle st rp).rs.wasPorted = true := by
  have hc : ¬(st.rs.State = play ∧ st.rs.wasPorted = false ∧
      0x12 ≤ rp.Packet.ID ∧ rp.Packet.ID ≤ 0x16) := by
    simp [h]
  unfold replayStep
  split
  · exact ⟨rfl, h⟩
  · dsimp only
    constructor
    · split <;> split <;> rfl
    · split <;> split <;> exact h

/-- A sender iteration with the flag unset either leaves the counter and
flag alone, or performs exactly one successful injection and sets the
flag. -/
theorem replayStep_flag_false (oracle : Nat → Bool) (st : ReplayState)
    (rp : recordedPacket) (h : st.rs.wasPorted = false) :
    ((replayStep oracle st rp).ported = st.ported ∧
      (replayStep oracle st rp).rs.wasPorted = false) ∨
    ((replayStep oracle st rp).ported = st.ported + 1 ∧
      (replayStep oracle st rp).rs.wasPorted = true) := by
  unfold replayStep portToLogin
  split
  · exact Or.inl ⟨rfl, h⟩
  · dsimp only
    split
    · split
      · right
        constructor
        · split <;> split <;> rfl
        · split <;> split <;> rfl
      · left
        constructor
        · split <;> split <;> rfl
        · split <;> split <;> exact h
    · left
      constructor
      · split <;> split <;> rfl
      · split <;> split <;> exact h

theorem foldl_once_inv (oracle : Nat → Bool) (l : List recordedPacket) :
    ∀ st : ReplayState,
    (st.ported = 0 ∧ st.rs.wasPorted = false) ∨
      (st.ported ≤ 1 ∧ st.rs.wasPorted = true) →
    ((l.foldl (replayStep oracle) st).ported = 0 ∧
      (l.foldl (replayStep oracle) st).rs.wasPorted = false) ∨
    ((l.foldl (replayStep oracle) st).ported ≤ 1 ∧
      (l.foldl (replayStep oracle) st).rs.wasPorted = true) := by
  induction l with
  | nil =>
      intro st h
      exact h
  | cons rp l ih =>
      intro st h
      rw [List.foldl_cons]
      apply ih
      rcases h with ⟨hp, hw⟩ | ⟨hp, hw⟩
      · rcases replayStep_flag_false oracle st rp hw with ⟨h1, h2⟩ | ⟨h1, h2⟩
        · exact Or.inl ⟨by omega, h2⟩
        · exact Or.inr ⟨by omega, h2⟩
      · obtain ⟨h1, h2⟩ := replayStep_flag_true oracle st rp hw
        exact Or.inr ⟨by omega, h2⟩

/-- C4 - One-shot teleport injection: over any replay run started with
the world-aligned flag unset, at most one synthetic teleport is
injected; and for a session of three consecutive packets with opcodes
in [0x12, 0x16] replayed in Play phase with all writes succeeding,
exactly one synthetic chat-command packet (opcode 0x03, formatted from
the captured login position) is written, immediately before the first
recorded packet, and the flag ends set. -/
theorem c4_one_shot_teleport :
    (∀ (oracle : Nat → Bool) (st : ReplayState),
      st.rs.wasPorted = false → st.ported = 0 →
        (replayPackets oracle st).ported ≤ 1) ∧
    (∀ (sz : SerializableSession) (p1 p2 p3 : Packet) (t1 t2 t3 : Int),
      sz.Packets = [⟨p1, t1⟩, ⟨p2, t2⟩, ⟨p3, t3⟩] →
      0x12 ≤ p1.ID → p1.ID ≤ 0x16 → 0x12 ≤ p2.ID → p2.ID ≤ 0x16 →
      0x12 ≤ p3.ID → p3.ID ≤ 0x16 →
      (replayPackets (fun _ => true)
          ⟨⟨⟨sz, play⟩, false⟩, 0, [], 0, 0, 0, false⟩).out =
        [teleportPacket sz.LoginX sz.LoginY sz.LoginZ, p1, p2, p3] ∧
      (replayPackets (fun _ => true)
          ⟨⟨⟨sz, play⟩, false⟩, 0, [], 0, 0, 0, false⟩).ported = 1 ∧
      (replayPackets (fun _ => true)
          ⟨⟨⟨sz, play⟩, false⟩, 0, [], 0, 0, 0, false⟩).rs.wasPorted = true) := by
  constructor
  · intro oracle st hw hp
    have h := foldl_once_inv oracle st.rs.Packets st (Or.inl ⟨hp, hw⟩)
    unfold replayPackets
    rcases h with ⟨h1, _⟩ | ⟨h1, _⟩
    · omega
    · exact h1
  · intro sz p1 p2 p3 t1 t2 t3 hp h1a h1b h2a h2b h3a h3b
    unfold replayPackets
    have hps : (⟨⟨⟨sz, play⟩, false⟩, 0, [], 0, 0, 0, false⟩ :
        ReplayState).rs.Packets = [⟨p1, t1⟩, ⟨p2, t2⟩, ⟨p3, t3⟩] := hp
    rw [hps, List.foldl_cons, List.foldl_cons, List.foldl_cons, List.foldl_nil]
    rw [replayStep_inject_ok (fun _ => true) _ ⟨p1, t1⟩ rfl rfl rfl h1a h1b rfl rfl]
    rw [replayStep_no_inject (fun _ => true) _ ⟨p2, t2⟩ rfl rfl rfl rfl]
    rw [replayStep_no_inject (fun _ => true) _ ⟨p3, t3⟩ rfl rfl rfl rfl]
    refine ⟨by simp, rfl, rfl⟩

/-- Witness for C4: a three-packet world-data session replayed with all
writes succeeding produces exactly one leading synthetic teleport. -/
theorem c4_one_shot_teleport_witness :
    (replayPackets (fun _ => true)
        ⟨⟨⟨⟨[⟨⟨0x12, []⟩, 0⟩, ⟨⟨0x13, [7]⟩, 10⟩, ⟨⟨0x16, []⟩, 20⟩],
          ⟨1⟩, ⟨2⟩, ⟨3⟩⟩, play⟩, false⟩, 0, [], 0, 0, 0, false⟩).out =
      [teleportPacket ⟨1⟩ ⟨2⟩ ⟨3⟩, ⟨0x12, []⟩, ⟨0x13, [7]⟩, ⟨0x16, []⟩] ∧
    (replayPackets (fun _ => true)
        ⟨⟨⟨⟨[⟨⟨0x12, []⟩, 0⟩, ⟨⟨0x13, [7]⟩, 10⟩, ⟨⟨0x16, []⟩, 20⟩],
          ⟨1⟩, ⟨2⟩, ⟨3⟩⟩, play⟩, false⟩, 0, [], 0, 0, 0, false⟩).ported = 1 :=
  have h := c4_one_shot_teleport.2
    ⟨[⟨⟨0x12, []⟩, 0⟩, ⟨⟨0x13, [7]⟩, 10⟩, ⟨⟨0x16, []⟩, 20⟩], ⟨1⟩, ⟨2⟩, ⟨3⟩⟩
    ⟨0x12, []⟩ ⟨0x13, [7]⟩ ⟨0x16, []⟩ 0 10 20 rfl (by decide) (by decide)
    (by decide) (by decide) (by decide) (by decide)
  ⟨h.1, h.2.1⟩

/-- The virtual clock after one non-stopped sender iteration: advanced
by the computed wait exactly when that wait is positive. -/
theorem replayStep_now (oracle : Nat → Bool) (st : ReplayState)
    (rp : recordedPacket) (hstop : st.stopped = false) :
    (replayStep oracle st rp).now =
      if rp.RelatTime - st.now > 0 then st.now + (rp.RelatTime - st.now)
        else st.now := by
  unfold replayStep portToLogin
  split
  · rename_i hs
    rw [hstop] at hs
    exact absurd hs (by simp)
  · dsimp only
    split <;> (try split) <;> (try split) <;> (try split) <;> rfl

/-- C7 - Replay pacing: each sender iteration computes the wait as the
recorded relativeTime minus the elapsed time; when positive it suspends
for exactly that duration, otherwise it sends immediately, so the send
never happens before the recorded offset; and a single recorded packet
with relativeTime 500 ms is transmitted at exactly the 500 ms mark of
the virtual clock. -/
theorem c7_replay_pacing :
    (∀ (oracle : Nat → Bool) (st : ReplayState) (rp : recordedPacket),
      st.stopped = false →
        (rp.RelatTime - st.now > 0 →
          (replayStep oracle st rp).now = st.now + (rp.RelatTime - st.now)) ∧
        (rp.RelatTime - st.now ≤ 0 → (replayStep oracle st rp).now = st.now) ∧
        rp.RelatTime ≤ (replayStep oracle st rp).now ∧
        st.now ≤ (replayStep oracle st rp).now) ∧
    (∀ (p : Packet) (x y z : Double),
      (replayPackets (fun _ => true)
          ⟨⟨⟨⟨[⟨p, 500000000⟩], x, y, z⟩, play⟩, true⟩,
            0, [], 0, 0, 0, false⟩).out = [p] ∧
      (replayPackets (fun _ => true)
          ⟨⟨⟨⟨[⟨p, 500000000⟩], x, y, z⟩, play⟩, true⟩,
            0, [], 0, 0, 0, false⟩).now = 500000000) := by
  constructor
  · intro oracle st rp hstop
    have hn := replayStep_now oracle st rp hstop
    refine ⟨?_, ?_, ?_, ?_⟩
    · intro hw
      rw [hn, if_pos hw]
    · intro hw
      rw [hn, if_neg (by omega)]
    · rw [hn]
      split <;> omega
    · rw [hn]
      split <;> omega
  · intro p x y z
    unfold replayPackets
    rw [show (⟨⟨⟨⟨[⟨p, 500000000⟩], x, y, z⟩, play⟩, true⟩,
        0, [], 0, 0, 0, false⟩ : ReplayState).rs.Packets = [⟨p, 500000000⟩] from rfl,
      List.foldl_cons, List.foldl_nil]
    rw [replayStep_no_inject (fun _ => true) _ ⟨p, 500000000⟩ rfl rfl rfl rfl]
    constructor
    · simp
    · norm_num

/-- Witness for C7: one concrete late packet (sent immediately) and the
concrete 500 ms scenario. -/
theorem c7_replay_pacing_witness :
    (replayStep (fun _ => true)
        ⟨⟨⟨⟨[], ⟨0⟩, ⟨0⟩, ⟨0⟩⟩, play⟩, true⟩, 700, [], 0, 0, 0, false⟩
        ⟨⟨0x05, []⟩, 600⟩).now = 700 ∧
    (replayPackets (fun _ => true)
        ⟨⟨⟨⟨[⟨⟨0x05, []⟩, 500000000⟩], ⟨0⟩, ⟨0⟩, ⟨0⟩⟩, play⟩, true⟩,
          0, [], 0, 0, 0, false⟩).now = 500000000 :=
  ⟨((c7_replay_pacing.1 (fun _ => true) _ _ rfl).2.1 (by norm_num)),
   (c7_replay_pacing.2 ⟨0x05, []⟩ ⟨0⟩ ⟨0⟩ ⟨0⟩).2⟩

/-- C10 - Injection failure handling: a failed write of the synthetic
teleport leaves the world-aligned flag unset and the output unchanged
(only the write and attempt counters advance), and the injection is
retried at the next qualifying packet: with the first write failing and
later writes succeeding, a two-packet world-data session sees two
attempts, exactly one successful injection (before the second packet),
and the flag ends set. -/
theorem c10_injection_retry :
    (∀ (oracle : Nat → Bool) (st : ReplayState), oracle st.writes = false →
      portToLogin oracle st =
        { st with writes := st.writes + 1, attempts := st.attempts + 1 }) ∧
    ((replayPackets (fun w => decide (0 < w))
        ⟨⟨⟨⟨[⟨⟨0x14, [9]⟩, 0⟩, ⟨⟨0x15, []⟩, 10⟩], ⟨4⟩, ⟨5⟩, ⟨6⟩⟩, play⟩, false⟩,
          0, [], 0, 0, 0, false⟩).out =
        [⟨0x14, [9]⟩, teleportPacket ⟨4⟩ ⟨5⟩ ⟨6⟩, ⟨0x15, []⟩] ∧
      (replayPackets (fun w => decide (0 < w))
        ⟨⟨⟨⟨[⟨⟨0x14, [9]⟩, 0⟩, ⟨⟨0x15, []⟩, 10⟩], ⟨4⟩, ⟨5⟩, ⟨6⟩⟩, play⟩, false⟩,
          0, [], 0, 0, 0, false⟩).attempts = 2 ∧
      (replayPackets (fun w => decide (0 < w))
        ⟨⟨⟨⟨[⟨⟨0x14, [9]⟩, 0⟩, ⟨⟨0x15, []⟩, 10⟩], ⟨4⟩, ⟨5⟩, ⟨6⟩⟩, play⟩, false⟩,
          0, [], 0, 0, 0, false⟩).ported = 1 ∧
      (replayPackets (fun w => decide (0 < w))
        ⟨⟨⟨⟨[⟨⟨0x14, [9]⟩, 0⟩, ⟨⟨0x15, []⟩, 10⟩], ⟨4⟩, ⟨5⟩, ⟨6⟩⟩, play⟩, false⟩,
          0, [], 0, 0, 0, false⟩).rs.wasPorted = true) := by
  constructor
  · intro oracle st ho
    unfold portToLogin
    rw [ho]
    simp
  · decide

/-- Witness for C10: a concrete failed injection write advances only the
write and attempt counters, leaving the flag unset and nothing sent. -/
theorem c10_injection_retry_witness :
    portToLogin (fun _ => false)
        ⟨⟨⟨⟨[], ⟨4⟩, ⟨5⟩, ⟨6⟩⟩, play⟩, false⟩, 0, [], 0, 0, 0, false⟩ =
      ⟨⟨⟨⟨[], ⟨4⟩, ⟨5⟩, ⟨6⟩⟩, play⟩, false⟩, 0, [], 1, 0, 1, false⟩ :=
  c10_injection_retry.1 (fun _ => false) _ rfl

/-! ### Replay responder (respondToServer)

The responder loop reads packets from the backend until a read fails;
the packets read are the explicit input list.  Write results are again
supplied by an oracle indexed by the write count.  VarInt is the go-mc
7-bit little-endian varint (value truncated to 32 bits); Long is 8
bytes big-endian. -/

def decVarIntAux : List Nat → Nat → Nat → Option Nat
  | [], _, _ => none
  | b :: rest, k, acc =>
      let acc2 := (acc + b % 128 * 2 ^ (7 * k)) % 2 ^ 32
      if b % 128 = b then some acc2
      else if 5 ≤ k then none
      else decVarIntAux rest (k + 1) acc2

/-- go-mc VarInt decoding: 7-bit groups, least significant first,
continuation bit 0x80, accumulated into a 32-bit value, bounded length. -/
def decVarInt (data : List Nat) : Option Nat :=
  decVarIntAux data 0 0

def encVarIntAux : Nat → Nat → List Nat
  | 0, _ => []
  | f + 1, n => if n < 128 then [n] else (n % 128 + 128) :: encVarIntAux f (n / 128)

/-- go-mc VarInt encoding of a 32-bit value. -/
def encVarInt (n : Nat) : List Nat :=
  encVarIntAux 5 (n % 2 ^ 32)

/-- Scan of the clientbound 0x34 packet as the responder performs it:
x, y, z (Double), yaw, pitch (Float), flags (Byte) - 33 bytes skipped -
then the teleport id (VarInt). -/
def scanTeleportID (data : List Nat) : Option Nat :=
  if 33 ≤ data.length then decVarInt (data.drop 33) else none

/-- One iteration of the respondToServer loop on an inbound packet:
while in Play, answer keep-alive requests (0x1F) with 0x10 carrying the
same id and position packets (0x34) with teleport-confirm 0x00 carrying
the same teleport id; every inbound packet then updates the phase by
the clientbound rule, except that a scan or write failure skips the
update (the Go continue).  Returns the new (session, write count) and
the packets written. -/
def respondStep (oracle : Nat → Bool) (sw : Session × Nat) (p : Packet) :
    (Session × Nat) × List Packet :=
  if sw.1.State = play then
    if p.ID = 0x1F then
      match scanLong p.Data with
      | none => (sw, [])
      | some keepID =>
          if oracle sw.2 then
            ((setStateFromClientbound sw.1 p.ID, sw.2 + 1),
              [⟨0x10, u64Bytes keepID⟩])
          else ((sw.1, sw.2 + 1), [])
    else if p.ID = 0x34 then
      match scanTeleportID p.Data with
      | none => (sw, [])
      | some tpID =>
          if oracle sw.2 then
            ((setStateFromClientbound sw.1 p.ID, sw.2 + 1),
              [⟨0x00, encVarInt tpID⟩])
          else ((sw.1, sw.2 + 1), [])
    else ((setStateFromClientbound sw.1 p.ID, sw.2), [])
  else ((setStateFromClientbound sw.1 p.ID, sw.2), [])

def respondLoop (oracle : Nat → Bool)
    (init : (Session × Nat) × List Packet) (inbound : List Packet) :
    (Session × Nat) × List Packet :=
  inbound.foldl
    (fun acc p =>
      ((respondStep oracle acc.1 p).1, acc.2 ++ (respondStep oracle acc.1 p).2))
    init

/-- respondToServer: process the whole inbound trace, collecting the
responses written back to the backend in order. -/
def respondToServer (oracle : Nat → Bool) (sw : Session × Nat)
    (inbound : List Packet) : (Session × Nat) × List Packet :=
  respondLoop oracle (sw, []) inbound

/-! ### Codec round trips -/

theorem beNat_u64Bytes (n : Nat) (h : n < 2 ^ 64) : beNat (u64Bytes n) = n := by
  simp [beNat, u64Bytes, List.foldl]
  omega

theorem u64Bytes_bytes (n : Nat) : ∀ b ∈ u64Bytes n, b < 256 := by
  intro b hb
  simp [u64Bytes] at hb
  omega

theorem u64Bytes_length (n : Nat) : (u64Bytes n).length = 8 := rfl

theorem scanLong_u64Bytes (n : Nat) (h : n < 2 ^ 64) :
    scanLong (u64Bytes n) = some n := by
  unfold scanLong
  rw [if_pos (by rw [u64Bytes_length])]
  rw [List.take_of_length_le (by rw [u64Bytes_length]), beNat_u64Bytes n h]

theorem beNat_bound : ∀ (l : List Nat) (acc : Nat), (∀ b ∈ l, b < 256) →
    List.foldl (fun a b => a * 256 + b) acc l < (acc + 1) * 256 ^ l.length
  | [], acc, _ => by simp
  | b :: t, acc, h => by
      have hb : b < 256 := h b (by simp)
      have ht : ∀ x ∈ t, x < 256 := fun x hx => h x (by simp [hx])
      have ih := beNat_bound t (acc * 256 + b) ht
      calc List.foldl (fun a b => a * 256 + b) acc (b :: t)
          = List.foldl (fun a b => a * 256 + b) (acc * 256 + b) t := by
            simp [List.foldl]
        _ < (acc * 256 + b + 1) * 256 ^ t.length := ih
        _ ≤ ((acc + 1) * 256) * 256 ^ t.length := by
            have : acc * 256 + b + 1 ≤ (acc + 1) * 256 := by omega
            exact Nat.mul_le_mul_right _ this
        _ = (acc + 1) * 256 ^ (b :: t).length := by
            rw [List.length_cons, Nat.pow_succ]
            ring

theorem scanLong_lt (data : List Nat) (P : Nat) (h : scanLong data = some P)
    (hb : ∀ b ∈ data, b < 256) : P < 2 ^ 64 := by
  unfold scanLong at h
  split at h
  · rename_i hlen
    have hP : P = beNat (data.take 8) := by
      injection h
      omega
    have htb : ∀ b ∈ data.take 8, b < 256 := fun b hbm =>
      hb b (List.take_subset 8 data hbm)
    have hlen8 : (data.take 8).length = 8 := by
      simp [List.length_take]
      omega
    have := beNat_bound (data.take 8) 0 htb
    rw [hlen8] at this
    unfold beNat at hP
    omega
  · exact absurd h (by simp)

theorem decVarIntAux_lt : ∀ (data : List Nat) (k acc v : Nat),
    decVarIntAux data k acc = some v → v < 2 ^ 32
  | [], _, _, _, h => absurd h (by simp [decVarIntAux])
  | b :: rest, k, acc, v, h => by
      unfold decVarIntAux at h
      dsimp only at h
      split at h
      · injection h with h2
        omega
      · split at h
        · exact absurd h (by simp)
        · exact decVarIntAux_lt rest (k + 1) _ v h

theorem decVarInt_encVarIntAux :
    ∀ (f n k acc : Nat), n < 128 ^ (f + 1) →
      acc + n * 2 ^ (7 * k) < 2 ^ 32 →
      decVarIntAux (encVarIntAux (f + 1) n) k acc = some (acc + n * 2 ^ (7 * k))
  | f, n, k, acc, hn, hb => by
      unfold encVarIntAux
      by_cases hsmall : n < 128
      · rw [if_pos hsmall]
        unfold decVarIntAux
        dsimp only
        rw [if_pos (by omega)]
        rw [Nat.mod_eq_of_lt hsmall, Nat.mod_eq_of_lt hb]
      · rw [if_neg hsmall]
        unfold decVarIntAux
        dsimp only
        have hbmod : (n % 128 + 128) % 128 = n % 128 := by omega
        rw [if_neg (by omega)]
        have hk : ¬ 5 ≤ k := by
          intro hk5
          have h1 : (2 : Nat) ^ (7 * 5) ≤ 2 ^ (7 * k) :=
            Nat.pow_le_pow_right (by omega) (by omega)
          have h2 : 128 * 2 ^ (7 * 5) ≤ n * 2 ^ (7 * k) :=
            Nat.mul_le_mul (by omega) h1
          have : (128 : Nat) * 2 ^ (7 * 5) = 2 ^ 42 := by norm_num
          rw [this] at h2
          have : (2 : Nat) ^ 32 < 2 ^ 42 := by norm_num
          omega
        rw [if_neg hk]
        cases f with
        | zero =>
            exfalso
            have : (128 : Nat) ^ (0 + 1) = 128 := by norm_num
            rw [this] at hn
            omega
        | succ f2 =>
            have hmod : acc + n % 128 * 2 ^ (7 * k) < 2 ^ 32 := by
              have : n % 128 * 2 ^ (7 * k) ≤ n * 2 ^ (7 * k) :=
                Nat.mul_le_mul_right _ (Nat.mod_le n 128)
              omega
            rw [hbmod, Nat.mod_eq_of_lt hmod]
            have hdiv : n / 128 < 128 ^ (f2 + 1) := by
              rw [Nat.div_lt_iff_lt_mul (by omega)]
              calc n < 128 ^ (f2 + 1 + 1) := hn
                _ = 128 ^ (f2 + 1) * 128 := by rw [Nat.pow_succ]
            have hkey : acc + n % 128 * 2 ^ (7 * k) + n / 128 * 2 ^ (7 * (k + 1)) =
                acc + n * 2 ^ (7 * k) := by
              have hsplit : n % 128 + 128 * (n / 128) = n := Nat.mod_add_div n 128
              have hpow : (2 : Nat) ^ (7 * (k + 1)) = 2 ^ (7 * k) * 128 := by
                rw [show 7 * (k + 1) = 7 * k + 7 by ring, Nat.pow_add]
              rw [hpow]
              conv_rhs => rw [← hsplit]
              ring
            have hb2 : acc + n % 128 * 2 ^ (7 * k) + n / 128 * 2 ^ (7 * (k + 1)) <
                2 ^ 32 := by rw [hkey]; exact hb
            have ih := decVarInt_encVarIntAux f2 (n / 128) (k + 1)
              (acc + n % 128 * 2 ^ (7 * k)) hdiv hb2
            rw [ih, hkey]

theorem decVarInt_encVarInt (n : Nat) (h : n < 2 ^ 32) :
    decVarInt (encVarInt n) = some n := by
  unfold decVarInt encVarInt
  rw [Nat.mod_eq_of_lt h]
  have h5 : n < 128 ^ (4 + 1) := by
    have : (2 : Nat) ^ 32 ≤ 128 ^ 5 := by norm_num
    omega
  have := decVarInt_encVarIntAux 4 n 0 0 h5 (by simpa using h)
  simpa using this

theorem scanTeleportID_lt (data : List Nat) (T : Nat)
    (h : scanTeleportID data = some T) : T < 2 ^ 32 := by
  unfold scanTeleportID at h
  split at h
  · exact decVarIntAux_lt (data.drop 33) 0 0 T h
  · exact absurd h (by simp)

/-- Each responder iteration emits a keep-alive response (0x10) only
for a keep-alive request (0x1F). -/
theorem respondStep_count10 (oracle : Nat → Bool) (sw : Session × Nat)
    (p : Packet) :
    ((respondStep oracle sw p).2.countP (fun q => q.ID == 0x10)) ≤
      (if p.ID = 0x1F then 1 else 0) := by
  unfold respondStep
  split <;> (try split) <;> (try split) <;> (try split) <;> (try split) <;>
    simp_all

theorem respondLoop_count10 (oracle : Nat → Bool) :
    ∀ (inbound : List Packet) (init : (Session × Nat) × List Packet),
    ((respondLoop oracle init inbound).2.countP (fun q => q.ID == 0x10)) ≤
      init.2.countP (fun q => q.ID == 0x10) +
        inbound.countP (fun q => q.ID == 0x1F) := by
  intro inbound
  induction inbound with
  | nil =>
      intro init
      simp [respondLoop]
  | cons p t ih =>
      intro init
      have hstep := respondStep_count10 oracle init.1 p
      have hrec := ih ((respondStep oracle init.1 p).1,
        init.2 ++ (respondStep oracle init.1 p).2)
      unfold respondLoop at hrec ⊢
      rw [List.foldl_cons]
      refine le_trans hrec ?_
      simp [List.countP_cons, List.countP_append]
      by_cases hp : p.ID = 0x1F
      · simp [hp] at hstep ⊢
        omega
      · simp [hp] at hstep ⊢
        exact hstep

/-- C6 - Responder fidelity: during replay Play phase, an inbound 0x1F
whose keep-alive id decodes to P is answered by exactly one 0x10
carrying the identical id; an inbound 0x34 whose teleport id decodes to
T is answered by exactly one teleport-confirm 0x00 carrying the
identical id; every other inbound opcode, and any packet outside Play,
produces no output; and across any inbound trace the responder never
emits more keep-alive responses than keep-alive requests received. -/
theorem c6_responder_fidelity :
    (∀ (oracle : Nat → Bool) (s : Session) (w : Nat) (p : Packet) (P : Nat),
      s.State = play → p.ID = 0x1F → scanLong p.Data = some P →
      (∀ b ∈ p.Data, b < 256) → oracle w = true →
        (respondStep oracle (s, w) p).2 = [⟨0x10, u64Bytes P⟩] ∧
        scanLong (u64Bytes P) = some P) ∧
    (∀ (oracle : Nat → Bool) (s : Session) (w : Nat) (p : Packet) (T : Nat),
      s.State = play → p.ID = 0x34 → scanTeleportID p.Data = some T →
      oracle w = true →
        (respondStep oracle (s, w) p).2 = [⟨0x00, encVarInt T⟩] ∧
        decVarInt (encVarInt T) = some T) ∧
    (∀ (oracle : Nat → Bool) (s : Session) (w : Nat) (p : Packet),
      p.ID ≠ 0x1F → p.ID ≠ 0x34 → (respondStep oracle (s, w) p).2 = []) ∧
    (∀ (oracle : Nat → Bool) (s : Session) (w : Nat) (p : Packet),
      s.State ≠ play → (respondStep oracle (s, w) p).2 = []) ∧
    (∀ (oracle : Nat → Bool) (sw : Session × Nat) (inbound : List Packet),
      ((respondToServer oracle sw inbound).2.countP (fun q => q.ID == 0x10)) ≤
        inbound.countP (fun q => q.ID == 0x1F)) := by
  refine ⟨?_, ?_, ?_, ?_, ?_⟩
  · intro oracle s w p P hplay hid hscan hbytes ho
    constructor
    · unfold respondStep
      dsimp only
      rw [if_pos hplay, if_pos hid, hscan]
      simp [ho]
    · exact scanLong_u64Bytes P (scanLong_lt p.Data P hscan hbytes)
  · intro oracle s w p T hplay hid hscan ho
    constructor
    · unfold respondStep
      dsimp only
      rw [if_pos hplay, if_neg (by rw [hid]; omega), if_pos hid, hscan]
      simp [ho]
    · exact decVarInt_encVarInt T (scanTeleportID_lt p.Data T hscan)
  · intro oracle s w p h1 h2
    unfold respondStep
    dsimp only
    split <;> rfl
  · intro oracle s w p h
    unfold respondStep
    dsimp only
    rw [if_neg h]
  · intro oracle sw inbound
    have := respondLoop_count10 oracle inbound (sw, [])
    unfold respondToServer
    simpa using this

/-- Witness for C6: concrete keep-alive and position packets answered
with the same ids, and a chat packet ignored. -/
theorem c6_responder_fidelity_witness :
    (respondStep (fun _ => true) (⟨⟨[], ⟨0⟩, ⟨0⟩, ⟨0⟩⟩, 3⟩, 0)
        ⟨0x1F, [0, 0, 0, 0, 0, 0, 1, 5]⟩).2 = [⟨0x10, u64Bytes 261⟩] ∧
    (respondStep (fun _ => true) (⟨⟨[], ⟨0⟩, ⟨0⟩, ⟨0⟩⟩, 3⟩, 0)
        ⟨0x34, List.replicate 33 0 ++ [200, 3]⟩).2 = [⟨0x00, encVarInt 456⟩] ∧
    (respondStep (fun _ => true) (⟨⟨[], ⟨0⟩, ⟨0⟩, ⟨0⟩⟩, 3⟩, 0)
        ⟨0x0F, [1]⟩).2 = [] ∧
    (respondStep (fun _ => true) (⟨⟨[], ⟨0⟩, ⟨0⟩, ⟨0⟩⟩, 2⟩, 0)
        ⟨0x1F, [0, 0, 0, 0, 0, 0, 1, 5]⟩).2 = [] :=
  ⟨(c6_responder_fidelity.1 (fun _ => true) _ 0 _ 261 rfl rfl (by decide)
      (by decide) rfl).1,
   (c6_responder_fidelity.2.1 (fun _ => true) _ 0 _ 456 rfl rfl (by decide)
      rfl).1,
   c6_responder_fidelity.2.2.1 (fun _ => true) _ 0 _ (by decide) (by decide),
   c6_responder_fidelity.2.2.2.1 (fun _ => true) _ 0 _ (by decide)⟩

/-! ### Relay pump (ClientToServer / StreamBidirectional)

One pump iteration is modelled by its observable effect given the
iteration's inputs: whether a closer token is available, the result of
the blocking read, and the result of the forwarding write.  In the Go
code an EOF performs errs <- err and a select-level break, so the for
loop itself ends only by receiving a closer token on a later iteration;
the iteration effect records returning, signalling errs, and the packet
forwarded (if any). -/

inductive ReadResult where
  | okP : Packet → ReadResult
  | eofRes : ReadResult
  | errRes : ReadResult
deriving DecidableEq, Repr

inductive WriteResult where
  | wok : WriteResult
  | weof : WriteResult
  | werr : WriteResult
deriving DecidableEq, Repr

structure PumpIter where
  closerReady : Bool
  read : ReadResult
  write : WriteResult
deriving DecidableEq, Repr

structure IterEffect where
  returns : Bool
  signaled : Bool
  forwarded : Option Packet
deriving DecidableEq, Repr

/-- One iteration of the ClientToServer loop body: return on a closer
token; on read EOF signal errs and continue; on another read error log
and continue; otherwise forward, where a write EOF signals errs and any
other write error is logged, the packet being dropped either way. -/
def clientToServerIter (it : PumpIter) : IterEffect :=
  if it.closerReady then ⟨true, false, none⟩
  else
    match it.read with
    | ReadResult.eofRes => ⟨false, true, none⟩
    | ReadResult.errRes => ⟨false, false, none⟩
    | ReadResult.okP p =>
        match it.write with
        | WriteResult.weof => ⟨false, true, none⟩
        | WriteResult.werr => ⟨false, false, none⟩
        | WriteResult.wok => ⟨false, false, some p⟩

/-- The pump loop over a trace of iteration inputs, stopping at the
first iteration that returns. -/
def clientToServerRun : List PumpIter → List IterEffect
  | [] => []
  | it :: rest =>
      if (clientToServerIter it).returns then [clientToServerIter it]
      else clientToServerIter it :: clientToServerRun rest

structure TeardownState where
  errsReceived : Nat
  closerTokens : Nat
  clientCloseCount : Nat
  serverCloseCount : Nat
deriving DecidableEq, Repr

/-- Session.Close: close the client and the server connection. -/
def sessionClose (t : TeardownState) : TeardownState :=
  { t with
    clientCloseCount := t.clientCloseCount + 1,
    serverCloseCount := t.serverCloseCount + 1 }

/-- The tail of StreamBidirectional after launching the two pumps:
receive the first error from errs, hand one closer token to each pump,
then Close once. -/
def streamBidirectionalTeardown (t : TeardownState) : TeardownState :=
  sessionClose
    { t with
      errsReceived := t.errsReceived + 1,
      closerTokens := t.closerTokens + 2 }

/-- C8 - Relay error classification: a stream-closed read or write
failure (and nothing else) signals termination through errs; a non-EOF
read or write error is logged, drops the packet in flight, and the loop
continues; no iteration without a closer token ends the loop, so the
whole input trace is processed; and after the first signal the engine
hands both pumps a closer token and closes the client and the server
connection exactly once. -/
theorem c8_relay_error_classification :
    (∀ it : PumpIter, it.closerReady = false →
      (clientToServerIter it).returns = false) ∧
    (∀ it : PumpIter, it.closerReady = false →
      ((clientToServerIter it).signaled = true ↔
        (it.read = ReadResult.eofRes ∨
          (∃ p, it.read = ReadResult.okP p ∧ it.write = WriteResult.weof)))) ∧
    (∀ it : PumpIter, it.closerReady = false → it.read = ReadResult.errRes →
      clientToServerIter it = ⟨false, false, none⟩) ∧
    (∀ (it : PumpIter) (p : Packet), it.closerReady = false →
      it.read = ReadResult.okP p → it.write = WriteResult.werr →
      clientToServerIter it = ⟨false, false, none⟩) ∧
    (∀ it : PumpIter, it.closerReady = true →
      clientToServerIter it = ⟨true, false, none⟩) ∧
    (∀ its : List PumpIter, (∀ it ∈ its, it.closerReady = false) →
      clientToServerRun its = its.map clientToServerIter) ∧
    streamBidirectionalTeardown ⟨0, 0, 0, 0⟩ = ⟨1, 2, 1, 1⟩ := by
  refine ⟨?_, ?_, ?_, ?_, ?_, ?_, rfl⟩
  · intro it h
    unfold clientToServerIter
    rw [if_neg (by simp [h])]
    cases hr : it.read <;> simp
    cases hw : it.write <;> simp
  · intro it h
    unfold clientToServerIter
    rw [if_neg (by simp [h])]
    cases hr : it.read <;> simp
    cases hw : it.write <;> simp
  · intro it h hr
    unfold clientToServerIter
    rw [if_neg (by simp [h]), hr]
  · intro it p h hr hw
    unfold clientToServerIter
    rw [if_neg (by simp [h]), hr, hw]
  · intro it h
    unfold clientToServerIter
    rw [if_pos h]
  · intro its
    induction its with
    | nil => intro _; rfl
    | cons it rest ih =>
        intro h
        have h1 : it.closerReady = false := h it (by simp)
        have h2 : ∀ x ∈ rest, x.closerReady = false := fun x hx => h x (by simp [hx])
        unfold clientToServerRun
        have hret : (clientToServerIter it).returns = false := by
          unfold clientToServerIter
          rw [if_neg (by simp [h1])]
          cases hr : it.read <;> simp
          cases hw : it.write <;> simp
        rw [hret]
        simp [ih h2]

/-- Witness for C8 at concrete iteration inputs: EOF signals, a plain
I/O error continues silently, and a two-iteration all-error trace is
fully processed. -/
theorem c8_relay_error_classification_witness :
    (clientToServerIter ⟨false, ReadResult.errRes, WriteResult.wok⟩ =
      ⟨false, false, none⟩) ∧
    ((clientToServerIter ⟨false, ReadResult.eofRes, WriteResult.wok⟩).signaled =
      true) ∧
    (clientToServerRun
        [⟨false, ReadResult.errRes, WriteResult.wok⟩,
         ⟨false, ReadResult.okP ⟨7, [1]⟩, WriteResult.werr⟩] =
      [⟨false, false, none⟩, ⟨false, false, none⟩]) :=
  ⟨c8_relay_error_classification.2.2.1 _ rfl rfl,
   (c8_relay_error_classification.2.1 _ rfl).2 (Or.inl rfl),
   by
    rw [c8_relay_error_classification.2.2.2.2.2.1 _ (by decide)]
    decide⟩

/-! ### Capture scheduling (the go proccessServerbound goroutines)

ClientToServer spawns the processing of every packet in its own
goroutine (go s.proccessServerbound(packet)); the goroutines share the
session without synchronization.  The runs of these per-packet tasks
are modelled as atomic executions in an arbitrary schedule order:
tasks lists the packets in wire order together with their observed
elapsed times, and sched lists the task indices in execution order. -/

def runCaptureSchedule (s : Session) (tasks : List (Packet × Int))
    (sched : List Nat) : Session :=
  sched.foldl
    (fun st i =>
      match tasks[i]? with
      | some pt => proccessServerbound st pt.1 pt.2
      | none => st) s

/-- Sequential in-spawn-order execution of the processing tasks. -/
def captureSeq (s : Session) (tasks : List (Packet × Int)) : Session :=
  tasks.foldl (fun st pt => proccessServerbound st pt.1 pt.2) s

/-- C9 counterexample: two serverbound packets read in wire order, whose
processing goroutines are scheduled in reverse, are appended to the log
in reverse order - the schedule [1, 0] is a permutation of the spawned
tasks, yet the log differs from the wire order, contradicting
"regardless of how the per-packet processing is scheduled". -/
theorem c9_counterexample :
    ([1, 0] : List Nat).Perm (List.range 2) ∧
    (runCaptureSchedule ⟨⟨[], ⟨0⟩, ⟨0⟩, ⟨0⟩⟩, 3⟩
        [(⟨0x05, []⟩, 10), (⟨0x06, []⟩, 20)] [1, 0]).Packets =
      [⟨⟨0x06, []⟩, 20⟩, ⟨⟨0x05, []⟩, 10⟩] ∧
    (captureSeq ⟨⟨[], ⟨0⟩, ⟨0⟩, ⟨0⟩⟩, 3⟩
        [(⟨0x05, []⟩, 10), (⟨0x06, []⟩, 20)]).Packets =
      [⟨⟨0x05, []⟩, 10⟩, ⟨⟨0x06, []⟩, 20⟩] ∧
    (runCaptureSchedule ⟨⟨[], ⟨0⟩, ⟨0⟩, ⟨0⟩⟩, 3⟩
        [(⟨0x05, []⟩, 10), (⟨0x06, []⟩, 20)] [1, 0]).Packets ≠
      (captureSeq ⟨⟨[], ⟨0⟩, ⟨0⟩, ⟨0⟩⟩, 3⟩
        [(⟨0x05, []⟩, 10), (⟨0x06, []⟩, 20)]).Packets := by
  decide

theorem proccessServerbound_Packets_cases (s : Session) (p : Packet) (t : Int) :
    (proccessServerbound s p t).Packets = s.Packets ∨
    (proccessServerbound s p t).Packets = s.Packets ++ [⟨p, t⟩] := by
  unfold proccessServerbound
  split
  · exact Or.inl rfl
  · right
    simp [setStateFromServerbound_Packets]

theorem runCapture_range_aux :
    ∀ (l full : List (Packet × Int)) (k : Nat) (s : Session),
      full.drop k = l →
      (List.range' k l.length).foldl
        (fun st i =>
          match full[i]? with
          | some pt => proccessServerbound st pt.1 pt.2
          | none => st) s =
      l.foldl (fun st pt => proccessServerbound st pt.1 pt.2) s := by
  intro l
  induction l with
  | nil =>
      intro full k s _
      rfl
  | cons pt l ih =>
      intro full k s hdrop
      have hget : full[k]? = some pt := by
        have h0 : (full.drop k)[0]? = some pt := by
          rw [hdrop]
          simp
        rw [List.getElem?_drop] at h0
        simpa using h0
      have hdrop2 : full.drop (k + 1) = l := by
        have : full.drop (k + 1) = (full.drop k).drop 1 := by
          rw [List.drop_drop]
        rw [this, hdrop]
        rfl
      rw [List.length_cons, List.range'_succ, List.foldl_cons, List.foldl_cons,
        hget]
      exact ih full (k + 1) _ hdrop2

/-- C9 (amended) - Capture order: when the per-packet processing tasks
execute in the order they were spawned, the capture equals sequential
in-wire-order processing, and sequential processing appends the
captured packets as an order-preserving subsequence of the wire order
(the filtered packets removed); an adversarial goroutine schedule can
reorder the log (see the counterexample), so the wire-order guarantee
holds only for in-spawn-order execution. -/
theorem c9_capture_order :
    (∀ (s : Session) (tasks : List (Packet × Int)),
      runCaptureSchedule s tasks (List.range tasks.length) =
        captureSeq s tasks) ∧
    (∀ (s : Session) (tasks : List (Packet × Int)),
      List.Sublist ((captureSeq s tasks).Packets.map recordedPacket.Packet)
        (s.Packets.map recordedPacket.Packet ++ tasks.map Prod.fst)) := by
  constructor
  · intro s tasks
    unfold runCaptureSchedule captureSeq
    rw [List.range_eq_range']
    exact runCapture_range_aux tasks tasks 0 s rfl
  · intro s tasks
    induction tasks generalizing s with
    | nil =>
        simp [captureSeq]
    | cons pt ts ih =>
        unfold captureSeq
        rw [List.foldl_cons]
        have step := ih (proccessServerbound s pt.1 pt.2)
        unfold captureSeq at step
        rcases proccessServerbound_Packets_cases s pt.1 pt.2 with hc | hc
        · rw [hc] at step
          refine step.trans ?_
          rw [List.map_cons]
          exact List.Sublist.append_left
            (List.sublist_cons_self pt.1 (ts.map Prod.fst)) _
        · rw [hc] at step
          refine step.trans ?_
          simp [List.append_assoc]

end MCReplay
